import Mathlib

/-!
Verification of `stac_publisher/publisher.py` (the `Publisher` class).

The Python module polls an Elasticsearch index for documents with
`status == "new"`, partitions them at a cutoff timestamp into an "old"
(`lte`) and a "young" (`gt`) query result, publishes the old documents
that do not also appear young, and then bulk-updates the published
documents' status to `"queued"`.

Shallow embedding: documents and messages are records, the Elasticsearch
index is a list of documents, the Python dict built by `get_messages` is
an insertion-ordered association list, timestamps are natural numbers of
microseconds, and the cycle `run` is a function from an environment
(index contents, configuration, injected external failures) to a result,
an event trace describing the externally visible side effects, and the
final index state.
-/

namespace StacPublisher

/-- A document stored in the Elasticsearch index, projected to the fields
the publisher reads or mutates: the value of the configured `ID_KEY`
field, `description_path`, `mod_time` (microseconds since epoch) and the
`status` facet. -/
structure Doc where
  id : String
  description_path : String
  mod_time : Nat
  status : String
deriving Repr, DecidableEq

/-- The outbound message built in `get_messages`:
`{"uri": sur_id, "description_path": hit["description_path"]}`. -/
structure Message where
  uri : String
  description_path : String
deriving Repr, DecidableEq

/-- The two range operators `run` passes to `get_messages`:
`"lte"` for the old query and `"gt"` for the young query. -/
inductive RangeOp where
  | lte
  | gt
deriving Repr, DecidableEq

/-- Semantics of an Elasticsearch `range` comparison of a document's
`mod_time` against the serialized cutoff. -/
def matchesRange : RangeOp → Nat → Nat → Bool
  | RangeOp.lte, t, c => t ≤ c
  | RangeOp.gt, t, c => c < t

/-- `cutoff.strftime("%Y-%m-%dT%H:%M:%S")` serializes the cutoff with
second precision: the sub-second (microsecond) part is truncated. -/
def fmtSeconds (t : Nat) : Nat := t / 1000000 * 1000000

/-- The search request assembled by `Publisher.__init__` (the
`term` filter on `status` with the `size` argument) and `get_messages`
(the `range` filter on `mod_time` against the serialized cutoff). -/
structure SearchQuery where
  status : String
  size : Nat
  op : RangeOp
  cutoffStr : Nat
deriving Repr, DecidableEq

/-- The query built by `get_messages` on top of `self.search`:
status `"new"`, size `10000`, and `mod_time {operator: cutoff-string}`. -/
def buildQuery (op : RangeOp) (cutoff : Nat) : SearchQuery :=
  { status := "new", size := 10000, op := op, cutoffStr := fmtSeconds cutoff }

/-- Modelled from the spec: the external Elasticsearch query execution
(`query.execute()` of the elasticsearch-dsl client, an external
collaborator). Per the Source interface ("filtered search by
status/time-range", bounded page size), it returns the documents whose
`status` matches the term filter and whose `mod_time` satisfies the
range filter, up to `size` hits. -/
def executeSearch (index : List Doc) (q : SearchQuery) : List Doc :=
  (index.filter fun d => d.status == q.status && matchesRange q.op d.mod_time q.cutoffStr).take
    q.size

/-- `sur_id in messages` on the Python dict: key membership in the
association list. -/
def containsKey (m : List (String × Message)) (k : String) : Bool :=
  m.any fun p => p.1 == k

/-- One iteration of the hit loop in `get_messages`:
`if sur_id not in messages: messages[sur_id] = {...}` — a hit whose id is
already a key is skipped. -/
def insertHit (messages : List (String × Message)) (hit : Doc) : List (String × Message) :=
  if containsKey messages hit.id then messages
  else messages ++ [(hit.id, { uri := hit.id, description_path := hit.description_path })]

/-- The dict built by the hit loop of `get_messages`, as an
insertion-ordered association list. -/
def buildMessages (hits : List Doc) : List (String × Message) :=
  hits.foldl insertHit []

/-- `Publisher.get_messages(operator, cutoff)`: execute the filtered
search and build the identifier→message dict from the hits. -/
def get_messages (index : List Doc) (op : RangeOp) (cutoff : Nat) : List (String × Message) :=
  buildMessages (executeSearch index (buildQuery op cutoff))

/-- `Publisher.filter_messages(old_messages, young_messages)`: the list
comprehension over `old_messages.values()` keeping the messages whose
`uri` is not a key of `young_messages`. -/
def filter_messages (old_messages young_messages : List (String × Message)) : List Message :=
  (old_messages.map Prod.snd).filter fun m => !containsKey young_messages m.uri

/-- The externally visible side effects of one cycle: a search request
sent to Elasticsearch, a message published to RabbitMQ with a routing
key, and the bulk `UpdateByQuery` request keyed on an identifier set. -/
inductive Event where
  | search (q : SearchQuery)
  | publish (routingKey : String) (msg : Message)
  | bulkUpdate (ids : List String)
deriving Repr, DecidableEq

/-- Modelled from the spec: the external Elasticsearch `UpdateByQuery`
execution (`update_query.execute()`). Per the Source interface ("bulk
conditional-update accepting an identifier-set match clause plus a field
assignment"), every document whose identifier is in `ids` gets
`status = "queued"`; every other document is untouched. -/
def executeUpdate (index : List Doc) (ids : List String) : List Doc :=
  index.map fun d => if ids.contains d.id then { d with status := "queued" } else d

/-- `Publisher.update_subs(messages)`: build
`ids = [message["uri"] for message in messages]` and issue the single
bulk update request. Returns the mutated index together with the one
request event it issues. -/
def update_subs (index : List Doc) (messages : List Message) : List Doc × List Event :=
  let ids := messages.map fun m => m.uri
  (executeUpdate index ids, [Event.bulkUpdate ids])

/-- The environment of one cycle: the index contents, the configuration
(`ROUTING_KEY`, `CUTOFF` in minutes) and the current time, plus injected
failures of the external collaborators (each query, each sink publish by
position, the bulk update), which in Python surface as uncaught
exceptions. -/
structure Env where
  index : List Doc
  routingKey : String
  cutoffMinutes : Nat
  now : Nat
  queryError1 : Option String
  queryError2 : Option String
  publishErrorAt : Option Nat
  updateError : Option String
deriving Repr, DecidableEq

/-- `datetime.now() - timedelta(minutes=self.conf.get("CUTOFF"))`. -/
def cutoffOf (env : Env) : Nat := env.now - env.cutoffMinutes * 60 * 1000000

/-- The old ("lte") candidate dict of one cycle. -/
def oldMessages (env : Env) : List (String × Message) :=
  get_messages env.index RangeOp.lte (cutoffOf env)

/-- The young ("gt") candidate dict of one cycle. -/
def youngMessages (env : Env) : List (String × Message) :=
  get_messages env.index RangeOp.gt (cutoffOf env)

/-- The filtered message list one cycle hands to the sink. -/
def cycleMessages (env : Env) : List Message :=
  filter_messages (oldMessages env) (youngMessages env)

/-- Modelled from the spec: the publish loop of
`Publisher.publish_messages` (the `RabbitProducer` of
`stac_publisher/rabbit.py` is not in scope; per the Sink interface it
exposes `publish(routingKey, payload)` which raises on failure).
`producer.publish` of message number `k` either emits the message event
or raises, in which case messages already published stay published. -/
def publishLoop (pubErrAt : Option Nat) (routingKey : String) :
    List Message → Nat → Except String Unit × List Event
  | [], _ => (Except.ok (), [])
  | m :: rest, k =>
    if pubErrAt = some k then (Except.error "PublishError", [])
    else
      let r := publishLoop pubErrAt routingKey rest (k + 1)
      (r.1, Event.publish routingKey m :: r.2)

instance decEqExcept : DecidableEq (Except String Unit) := fun a b =>
  match a, b with
  | Except.ok u, Except.ok v => isTrue (by cases u; cases v; rfl)
  | Except.ok _, Except.error _ => isFalse (by intro h; cases h)
  | Except.error _, Except.ok _ => isFalse (by intro h; cases h)
  | Except.error e, Except.error f =>
    if h : e = f then isTrue (by rw [h]) else isFalse (by intro hc; cases hc; exact h rfl)

/-- The outcome of one cycle: the Python return/raise behaviour of
`run`, the trace of external requests in the order they were issued, and
the final index state. -/
structure RunResult where
  result : Except String Unit
  trace : List Event
  index : List Doc
deriving Repr, DecidableEq

/-- `Publisher.run()`: compute the cutoff, run the two queries, filter,
publish, bulk-update — strictly in that order, with every failure of an
external call propagating uncaught (no `try`/`except` anywhere in the
module). -/
def run (env : Env) : RunResult :=
  let cutoff := cutoffOf env
  let q1 := buildQuery RangeOp.lte cutoff
  match env.queryError1 with
  | some e => ⟨Except.error e, [Event.search q1], env.index⟩
  | none =>
    let old := buildMessages (executeSearch env.index q1)
    let q2 := buildQuery RangeOp.gt cutoff
    match env.queryError2 with
    | some e => ⟨Except.error e, [Event.search q1, Event.search q2], env.index⟩
    | none =>
      let young := buildMessages (executeSearch env.index q2)
      let messages := filter_messages old young
      let pub := publishLoop env.publishErrorAt env.routingKey messages 0
      match pub.1 with
      | Except.error e => ⟨Except.error e, Event.search q1 :: Event.search q2 :: pub.2, env.index⟩
      | Except.ok _ =>
        match env.updateError with
        | some e =>
          ⟨Except.error e, Event.search q1 :: Event.search q2 :: pub.2, env.index⟩
        | none =>
          let upd := update_subs env.index messages
          ⟨Except.ok (), (Event.search q1 :: Event.search q2 :: pub.2) ++ upd.2, upd.1⟩

/-- Union of two candidate dicts (first operand wins on a shared key),
used to state the spec's `filter({A∪C}, {B∪C})` property. -/
def mapUnion (a b : List (String × Message)) : List (String × Message) :=
  b.foldl (fun acc p => if containsKey acc p.1 then acc else acc ++ [p]) a

/-- Recognizer for publish events in a trace. -/
def isPublish : Event → Bool
  | Event.publish _ _ => true
  | _ => false

/-- The scenario's reference time `T`: one hour past the epoch, in
microseconds. -/
def scenarioT : Nat := 3600000000

/-- Scenario document `a`: modified ten minutes before `T`, status new. -/
def scenarioDocA : Doc :=
  { id := "a", description_path := "pa", mod_time := scenarioT - 10 * 60 * 1000000,
    status := "new" }

/-- Scenario document `b`: modified one minute before `T`, status new. -/
def scenarioDocB : Doc :=
  { id := "b", description_path := "pb", mod_time := scenarioT - 1 * 60 * 1000000,
    status := "new" }

/-- The scenario environment: both documents in the index, cutoff age
five minutes, current time `T`, no injected failures. -/
def scenarioEnv : Env :=
  { index := [scenarioDocA, scenarioDocB], routingKey := "rk", cutoffMinutes := 5,
    now := scenarioT, queryError1 := none, queryError2 := none, publishErrorAt := none,
    updateError := none }

/-- A single stabilized new document, used in the failure-injection
environments below. -/
def stableDoc : Doc := { id := "a", description_path := "p", mod_time := 0, status := "new" }

/-- Environment whose first (old/`lte`) query raises. -/
def envQ1Fail : Env :=
  { index := [stableDoc], routingKey := "rk", cutoffMinutes := 0, now := 0,
    queryError1 := some "QueryError", queryError2 := none, publishErrorAt := none,
    updateError := none }

/-- Environment whose second (young/`gt`) query raises. -/
def envQ2Fail : Env :=
  { index := [stableDoc], routingKey := "rk", cutoffMinutes := 0, now := 0,
    queryError1 := none, queryError2 := some "QueryError", publishErrorAt := none,
    updateError := none }

/-- Environment whose first sink publish raises. -/
def envPubFail : Env :=
  { index := [stableDoc], routingKey := "rk", cutoffMinutes := 0, now := 0,
    queryError1 := none, queryError2 := none, publishErrorAt := some 0,
    updateError := none }

/-- Environment whose bulk status update raises. -/
def envUpdFail : Env :=
  { index := [stableDoc], routingKey := "rk", cutoffMinutes := 0, now := 0,
    queryError1 := none, queryError2 := none, publishErrorAt := none,
    updateError := some "UpdateError" }

/-- The message of the C1 counterexample instance. -/
def cexMessage : Message := { uri := "a", description_path := "p" }

/-- A message whose uri matches no document of the frame witness. -/
def cexMessage2 : Message := { uri := "z", description_path := "q" }

/-- Entry message for identifier `"b"` in the C1 witness instance. -/
def msgB : Message := { uri := "b", description_path := "qb" }

/-- Entry message for identifier `"c"` in the C1 witness instance. -/
def msgC : Message := { uri := "c", description_path := "qc" }

/-- Two hits carrying the same identifier but different payload paths,
exercising the dedup branch of the `get_messages` hit loop. -/
def dupHitFirst : Doc := { id := "x", description_path := "p1", mod_time := 0, status := "new" }

/-- The later of the two duplicate hits. -/
def dupHitSecond : Doc := { id := "x", description_path := "p2", mod_time := 0, status := "new" }

/-! ## Helper lemmas -/

lemma mem_executeSearch {index : List Doc} {q : SearchQuery} {d : Doc}
    (hd : d ∈ executeSearch index q) :
    d.status = q.status ∧ matchesRange q.op d.mod_time q.cutoffStr = true := by
  have h1 : d ∈ index.filter
      fun d => d.status == q.status && matchesRange q.op d.mod_time q.cutoffStr :=
    List.take_subset _ _ hd
  have h2 := (List.mem_filter.mp h1).2
  rw [Bool.and_eq_true] at h2
  exact ⟨by simpa using h2.1, h2.2⟩

lemma mem_zip_map {α β : Type} (f : α → β) :
    ∀ (l : List α) (p : α × β), p ∈ l.zip (l.map f) → p.2 = f p.1 := by
  intro l
  induction l with
  | nil => intro p hp; cases hp
  | cons a l ih =>
    intro p hp
    simp only [List.map_cons, List.zip_cons_cons] at hp
    rcases List.mem_cons.mp hp with h | h
    · rw [h]
    · exact ih _ h

lemma publishLoop_none (rk : String) :
    ∀ (msgs : List Message) (k : Nat),
      publishLoop none rk msgs k = (Except.ok (), msgs.map fun m => Event.publish rk m) := by
  intro msgs
  induction msgs with
  | nil => intro k; rfl
  | cons m rest ih => intro k; simp [publishLoop, ih]

lemma publishLoop_ok (pe : Option Nat) (rk : String) :
    ∀ (msgs : List Message) (k : Nat),
      (publishLoop pe rk msgs k).1 = Except.ok () →
      (publishLoop pe rk msgs k).2 = msgs.map fun m => Event.publish rk m := by
  intro msgs
  induction msgs with
  | nil => intro k _; rfl
  | cons m rest ih =>
    intro k hk
    by_cases h : pe = some k
    · rw [publishLoop, if_pos h] at hk
      cases hk
    · rw [publishLoop, if_neg h] at hk ⊢
      show Event.publish rk m :: (publishLoop pe rk rest (k + 1)).2 =
        (m :: rest).map fun m => Event.publish rk m
      rw [List.map_cons]
      exact congrArg _ (ih (k + 1) hk)

lemma publishLoop_mem {pe : Option Nat} {rk : String} :
    ∀ {msgs : List Message} {k : Nat} {ev : Event},
      ev ∈ (publishLoop pe rk msgs k).2 → ∃ m, m ∈ msgs ∧ ev = Event.publish rk m := by
  intro msgs
  induction msgs with
  | nil => intro k ev hev; cases hev
  | cons m rest ih =>
    intro k ev hev
    by_cases h : pe = some k
    · rw [publishLoop, if_pos h] at hev
      cases hev
    · rw [publishLoop, if_neg h] at hev
      rcases List.mem_cons.mp hev with h1 | h1
      · exact ⟨m, List.mem_cons_self _ _, h1⟩
      · obtain ⟨m', hm', rfl⟩ := ih h1
        exact ⟨m', List.mem_cons_of_mem _ hm', rfl⟩

lemma publishLoop_err (rk : String) :
    ∀ (msgs : List Message) (j K : Nat), j ≤ K → K < j + msgs.length →
      (publishLoop (some K) rk msgs j).1 = Except.error "PublishError" := by
  intro msgs
  induction msgs with
  | nil => intro j K h1 h2; simp at h2; omega
  | cons m rest ih =>
    intro j K h1 h2
    by_cases h : K = j
    · rw [publishLoop, if_pos (by rw [h])]
    · rw [publishLoop, if_neg (by simp; omega)]
      exact ih (j + 1) K (by omega) (by simp at h2; omega)

lemma run_unfold (env : Env) :
    run env =
      match env.queryError1 with
      | some e => ⟨Except.error e, [Event.search (buildQuery RangeOp.lte (cutoffOf env))],
          env.index⟩
      | none =>
        match env.queryError2 with
        | some e => ⟨Except.error e,
            [Event.search (buildQuery RangeOp.lte (cutoffOf env)),
             Event.search (buildQuery RangeOp.gt (cutoffOf env))], env.index⟩
        | none =>
          match (publishLoop env.publishErrorAt env.routingKey (cycleMessages env) 0).1 with
          | Except.error e => ⟨Except.error e,
              Event.search (buildQuery RangeOp.lte (cutoffOf env)) ::
                Event.search (buildQuery RangeOp.gt (cutoffOf env)) ::
                  (publishLoop env.publishErrorAt env.routingKey (cycleMessages env) 0).2,
              env.index⟩
          | Except.ok _ =>
            match env.updateError with
            | some e => ⟨Except.error e,
                Event.search (buildQuery RangeOp.lte (cutoffOf env)) ::
                  Event.search (buildQuery RangeOp.gt (cutoffOf env)) ::
                    (publishLoop env.publishErrorAt env.routingKey (cycleMessages env) 0).2,
                env.index⟩
            | none => ⟨Except.ok (),
                (Event.search (buildQuery RangeOp.lte (cutoffOf env)) ::
                  Event.search (buildQuery RangeOp.gt (cutoffOf env)) ::
                    (publishLoop env.publishErrorAt env.routingKey (cycleMessages env) 0).2) ++
                  (update_subs env.index (cycleMessages env)).2,
                (update_subs env.index (cycleMessages env)).1⟩ := rfl

lemma mem_cycleMessages {env : Env} {m : Message} (h : m ∈ cycleMessages env) :
    containsKey (youngMessages env) m.uri = false := by
  unfold cycleMessages filter_messages at h
  have := (List.mem_filter.mp h).2
  rwa [Bool.not_eq_true'] at this

lemma containsKey_append (a b : List (String × Message)) (k : String) :
    containsKey (a ++ b) k = (containsKey a k || containsKey b k) := by
  simp [containsKey, List.any_append]

lemma containsKey_of_mem {c : List (String × Message)} {p : String × Message} (hp : p ∈ c) :
    containsKey c p.1 = true := by
  simp only [containsKey, List.any_eq_true]
  exact ⟨p, hp, by simp⟩

lemma mapUnion_exists :
    ∀ (b a : List (String × Message)),
      ∃ extra, mapUnion a b = a ++ extra ∧ ∀ p ∈ extra, p ∈ b := by
  intro b
  induction b with
  | nil => intro a; exact ⟨[], by simp [mapUnion], by simp⟩
  | cons p b ih =>
    intro a
    by_cases h : containsKey a p.1 = true
    · obtain ⟨extra, he, hsub⟩ := ih a
      refine ⟨extra, ?_, fun q hq => List.mem_cons_of_mem _ (hsub q hq)⟩
      rw [← he]
      simp [mapUnion, h]
    · obtain ⟨extra, he, hsub⟩ := ih (a ++ [p])
      refine ⟨p :: extra, ?_, ?_⟩
      · rw [show a ++ p :: extra = (a ++ [p]) ++ extra by simp, ← he]
        simp only [mapUnion, List.foldl_cons]
        rw [if_neg h]
      · intro q hq
        rcases List.mem_cons.mp hq with h1 | h1
        · rw [h1]; exact List.mem_cons_self _ _
        · exact List.mem_cons_of_mem _ (hsub q h1)

lemma containsKey_mapUnion :
    ∀ (b a : List (String × Message)) (k : String),
      containsKey (mapUnion a b) k = (containsKey a k || containsKey b k) := by
  intro b
  induction b with
  | nil => intro a k; simp [mapUnion, containsKey]
  | cons p b ih =>
    intro a k
    by_cases h : containsKey a p.1 = true
    · have step : mapUnion a (p :: b) = mapUnion a b := by
        simp [mapUnion, h]
      rw [step, ih]
      by_cases hpk : (p.1 == k) = true
      · have hck : containsKey a k = true := by
          rw [← beq_iff_eq.mp hpk]; exact h
        rw [hck]
        simp
      · have hpf : (p.1 == k) = false := Bool.eq_false_iff.mpr hpk
        have hcons : containsKey (p :: b) k = containsKey b k := by
          simp only [containsKey, List.any_cons, hpf, Bool.false_or]
        rw [hcons]
    · have step : mapUnion a (p :: b) = mapUnion (a ++ [p]) b := by
        simp only [mapUnion, List.foldl_cons]
        rw [if_neg h]
      rw [step, ih, containsKey_append]
      have h1 : containsKey [p] k = (p.1 == k) := by
        simp only [containsKey, List.any_cons, List.any_nil, Bool.or_false]
      have h2 : containsKey (p :: b) k = ((p.1 == k) || containsKey b k) := by
        simp only [containsKey, List.any_cons]
      rw [h1, h2, Bool.or_assoc]

lemma not_mem_keys {acc : List (String × Message)} {k : String}
    (h : containsKey acc k = false) : k ∉ acc.map Prod.fst := by
  intro hk
  obtain ⟨p, hp, hpk⟩ := List.mem_map.mp hk
  have hc := containsKey_of_mem hp
  rw [hpk] at hc
  rw [hc] at h
  cases h

lemma foldl_insertHit_nodup :
    ∀ (hits : List Doc) (acc : List (String × Message)),
      (acc.map Prod.fst).Nodup → ((hits.foldl insertHit acc).map Prod.fst).Nodup := by
  intro hits
  induction hits with
  | nil => intro acc h; exact h
  | cons hd tl ih =>
    intro acc h
    rw [List.foldl_cons]
    apply ih
    unfold insertHit
    by_cases hc : containsKey acc hd.id = true
    · rw [if_pos hc]; exact h
    · rw [if_neg hc, List.map_append]
      simp only [List.map_cons, List.map_nil]
      rw [List.nodup_append]
      refine ⟨h, List.nodup_singleton _, ?_⟩
      intro a ha hb
      rw [List.mem_singleton] at hb
      subst hb
      exact not_mem_keys (Bool.eq_false_iff.mpr hc) ha

lemma foldl_insertHit_containsKey :
    ∀ (hits : List Doc) (acc : List (String × Message)) (k : String),
      containsKey (hits.foldl insertHit acc) k =
        (containsKey acc k || hits.any fun h => h.id == k) := by
  intro hits
  induction hits with
  | nil => intro acc k; simp
  | cons hd tl ih =>
    intro acc k
    rw [List.foldl_cons, ih]
    unfold insertHit
    by_cases hc : containsKey acc hd.id = true
    · rw [if_pos hc]
      by_cases hpk : (hd.id == k) = true
      · have hck : containsKey acc k = true := by rw [← beq_iff_eq.mp hpk]; exact hc
        rw [hck, List.any_cons]
        simp
      · have hpf : (hd.id == k) = false := Bool.eq_false_iff.mpr hpk
        rw [List.any_cons, hpf, Bool.false_or]
    · rw [if_neg hc, containsKey_append]
      have h1 : containsKey
          [(hd.id, { uri := hd.id, description_path := hd.description_path })] k =
          (hd.id == k) := by
        simp only [containsKey, List.any_cons, List.any_nil, Bool.or_false]
      rw [h1, List.any_cons, Bool.or_assoc]

lemma foldl_insertHit_mem :
    ∀ (hits : List Doc) (acc : List (String × Message)) (k : String) (m : Message),
      (k, m) ∈ hits.foldl insertHit acc ↔
        (k, m) ∈ acc ∨ (containsKey acc k = false ∧
          ∃ h, hits.find? (fun h => h.id == k) = some h ∧
            m = { uri := h.id, description_path := h.description_path }) := by
  intro hits
  induction hits with
  | nil => intro acc k m; simp
  | cons hd tl ih =>
    intro acc k m
    rw [List.foldl_cons, ih]
    by_cases hc : containsKey acc hd.id = true
    · rw [show insertHit acc hd = acc from by rw [insertHit, if_pos hc]]
      by_cases hpk : (hd.id == k) = true
      · have hck : containsKey acc k = true := by rw [← beq_iff_eq.mp hpk]; exact hc
        have hfind : (hd :: tl).find? (fun h => h.id == k) = some hd := by
          simp [List.find?_cons, hpk]
        rw [hfind]
        simp [hck]
      · have hpf : (hd.id == k) = false := Bool.eq_false_iff.mpr hpk
        have hfind : (hd :: tl).find? (fun h => h.id == k) =
            tl.find? (fun h => h.id == k) := by
          simp [List.find?_cons, hpf]
        rw [hfind]
    · have hcf : containsKey acc hd.id = false := Bool.eq_false_iff.mpr hc
      rw [show insertHit acc hd =
          acc ++ [(hd.id, { uri := hd.id, description_path := hd.description_path })] from
        by rw [insertHit, if_neg hc]]
      by_cases hpk : (hd.id == k) = true
      · have hkk : hd.id = k := beq_iff_eq.mp hpk
        subst hkk
        have hfind : (hd :: tl).find? (fun h => h.id == hd.id) = some hd := by
          simp [List.find?_cons, hpk]
        rw [hfind]
        have hck2 : containsKey
            (acc ++ [(hd.id, { uri := hd.id, description_path := hd.description_path })])
            hd.id = true := by
          rw [containsKey_append]
          simp [containsKey]
        simp [hck2, hcf, List.mem_append]
      · have hpf : (hd.id == k) = false := Bool.eq_false_iff.mpr hpk
        have hkk : ¬k = hd.id := fun h => hpk (by rw [h]; exact beq_self_eq_true _)
        have hfind : (hd :: tl).find? (fun h => h.id == k) =
            tl.find? (fun h => h.id == k) := by
          simp [List.find?_cons, hpf]
        rw [hfind]
        have hmem : ((k, m) ∈
            acc ++ [(hd.id, { uri := hd.id, description_path := hd.description_path })]) ↔
            (k, m) ∈ acc := by
          simp [List.mem_append, Prod.mk.injEq, hkk]
        have hck2 : containsKey
            (acc ++ [(hd.id, { uri := hd.id, description_path := hd.description_path })]) k =
            containsKey acc k := by
          rw [containsKey_append]
          simp only [containsKey, List.any_cons, List.any_nil, hpf, Bool.or_false]
        rw [hmem, hck2]

/-! ## Claim theorems -/

/-- C2: running one cycle at time `T` on a source holding exactly
documents `a` (modified `T - 10min`, status new) and `b` (modified
`T - 1min`, status new) with a cutoff age of five minutes publishes
exactly one message, that message has uri `"a"`, and afterwards document
`a` has status `"queued"` while document `b` still has status
`"new"`. -/
theorem run_scenario_publishes_exactly_a :
    (run scenarioEnv).result = Except.ok () ∧
    (run scenarioEnv).trace.filter isPublish =
      [Event.publish "rk" { uri := "a", description_path := "pa" }] ∧
    (run scenarioEnv).index =
      [{ scenarioDocA with status := "queued" }, scenarioDocB] ∧
    scenarioDocB.status = "new" := by
  decide

/-- C5: the bulk status update is idempotent: running `update_subs`
twice with the same message list leaves the index exactly as running it
once. -/
theorem update_subs_idempotent (index : List Doc) (msgs : List Message) :
    (update_subs (update_subs index msgs).1 msgs).1 = (update_subs index msgs).1 := by
  simp only [update_subs, executeUpdate, List.map_map]
  induction index with
  | nil => rfl
  | cons d l ih =>
    simp only [List.map_cons, Function.comp_apply, List.cons.injEq]
    refine ⟨?_, by simpa using ih⟩
    by_cases h : ∃ a ∈ msgs, a.uri = d.id
    · simp [h]
    · simp [h]

/-- C6: every Selector query is built with the `status == "new"` term
filter, the `size = 10000` page bound, and the requested range operator
against the second-truncated cutoff; consequently no document with a
status other than `"new"` ever appears in the query result. -/
theorem selector_query_status_gating (op : RangeOp) (cutoff : Nat) :
    (buildQuery op cutoff).status = "new" ∧
    (buildQuery op cutoff).size = 10000 ∧
    (buildQuery op cutoff).op = op ∧
    (buildQuery op cutoff).cutoffStr = fmtSeconds cutoff ∧
    ∀ index d, d ∈ executeSearch index (buildQuery op cutoff) →
      d.status = "new" ∧ matchesRange op d.mod_time (fmtSeconds cutoff) = true := by
  refine ⟨rfl, rfl, rfl, rfl, ?_⟩
  intro index d hd
  exact mem_executeSearch hd

/-- C6 witness: the gating theorem applied to a concrete index holding
one new stabilized document. -/
theorem selector_query_status_gating_witness :
    stableDoc.status = "new" ∧
    matchesRange RangeOp.lte stableDoc.mod_time (fmtSeconds 0) = true :=
  (selector_query_status_gating RangeOp.lte 0).2.2.2.2 [stableDoc] stableDoc (by decide)

/-- C8: the bulk update only touches documents matching the given
identifier set — positionally, every document of the index whose
identifier is not among the messages' uris is carried over entirely
unchanged. -/
theorem update_subs_frame (index : List Doc) (msgs : List Message) :
    (update_subs index msgs).1.length = index.length ∧
    ∀ p ∈ index.zip (update_subs index msgs).1,
      p.1.id ∉ msgs.map (fun m => m.uri) → p.2 = p.1 := by
  constructor
  · simp [update_subs, executeUpdate]
  · intro p hp hid
    have h := mem_zip_map _ index p hp
    rw [h]
    have hc : ¬∃ a ∈ msgs, a.uri = p.1.id := by simpa using hid
    simp [hc]

/-- C8 witness: a document outside the identifier set is untouched. -/
theorem update_subs_frame_witness :
    (stableDoc, stableDoc).2 = (stableDoc, stableDoc).1 :=
  (update_subs_frame [stableDoc] [cexMessage2]).2 (stableDoc, stableDoc) (by decide) (by decide)

/-- C3: for every non-empty message list, `update_subs` issues exactly
one bulk request, keyed on the messages' uri set, and afterwards every
index document whose identifier is in that set has status `"queued"`. -/
theorem update_subs_bulk (index : List Doc) (msgs : List Message) (_hne : msgs ≠ []) :
    (update_subs index msgs).2 = [Event.bulkUpdate (msgs.map fun m => m.uri)] ∧
    (update_subs index msgs).2.length = 1 ∧
    ∀ d ∈ (update_subs index msgs).1,
      d.id ∈ msgs.map (fun m => m.uri) → d.status = "queued" := by
  refine ⟨rfl, rfl, ?_⟩
  intro d hd hid
  simp only [update_subs, executeUpdate] at hd
  obtain ⟨orig, _, rfl⟩ := List.mem_map.mp hd
  by_cases h : ∃ a ∈ msgs, a.uri = orig.id
  · simp [h]
  · simp [h] at hid

/-- C3 witness: one bulk request, and the matched document ends
queued. -/
theorem update_subs_bulk_witness :
    (update_subs [stableDoc] [cexMessage]).2.length = 1 ∧
    ({ stableDoc with status := "queued" } : Doc).status = "queued" :=
  ⟨(update_subs_bulk [stableDoc] [cexMessage] (by decide)).2.1,
   (update_subs_bulk [stableDoc] [cexMessage] (by decide)).2.2
     { stableDoc with status := "queued" } (by decide) (by decide)⟩

/-- C10: both range queries of a cycle serialize the same cutoff with
second precision (sub-second part truncated); hence a document whose
`mod_time` is unchanged between the two queries matches at most one of
the `lte` and `gt` filters, and a document modified within the cutoff's
truncated second but after the truncation boundary falls on the
strictly-after (`gt`) side. -/
theorem cutoff_truncation_partition (cutoff : Nat) :
    (buildQuery RangeOp.lte cutoff).cutoffStr = (buildQuery RangeOp.gt cutoff).cutoffStr ∧
    fmtSeconds cutoff % 1000000 = 0 ∧
    fmtSeconds cutoff ≤ cutoff ∧
    cutoff - fmtSeconds cutoff < 1000000 ∧
    (∀ t : Nat, ¬(matchesRange RangeOp.lte t (fmtSeconds cutoff) = true ∧
      matchesRange RangeOp.gt t (fmtSeconds cutoff) = true)) ∧
    (∀ index d, ¬(d ∈ executeSearch index (buildQuery RangeOp.lte cutoff) ∧
      d ∈ executeSearch index (buildQuery RangeOp.gt cutoff))) ∧
    ∀ t : Nat, fmtSeconds cutoff < t → t ≤ cutoff →
      matchesRange RangeOp.gt t (fmtSeconds cutoff) = true ∧
      matchesRange RangeOp.lte t (fmtSeconds cutoff) = false := by
  refine ⟨rfl, ?_, ?_, ?_, ?_, ?_, ?_⟩
  · simp [fmtSeconds]
  · simp only [fmtSeconds]; omega
  · simp only [fmtSeconds]; omega
  · intro t ht
    simp only [matchesRange, decide_eq_true_eq] at ht
    omega
  · intro index d hd
    have h1 := (mem_executeSearch hd.1).2
    have h2 := (mem_executeSearch hd.2).2
    simp only [buildQuery, matchesRange, decide_eq_true_eq] at h1 h2
    omega
  · intro t h1 h2
    simp only [matchesRange, decide_eq_true_eq, decide_eq_false_iff_not]
    omega

/-- C10 witness: the partition theorem at cutoff 1500000 μs (truncated
to 1000000) and a document time of 1200000 μs, inside the truncated
second: it falls on the strictly-after side. -/
theorem cutoff_truncation_partition_witness :
    matchesRange RangeOp.gt 1200000 (fmtSeconds 1500000) = true ∧
    matchesRange RangeOp.lte 1200000 (fmtSeconds 1500000) = false :=
  (cutoff_truncation_partition 1500000).2.2.2.2.2.2 1200000 (by decide) (by decide)

/-- C9: no error is caught inside the cycle: a failure of the first
query, the second query, a sink publish, or the bulk update propagates
out of `run` as that very error; on a query error the cycle aborts with
no message published, no update issued and the index untouched — never
a silent partial result. -/
theorem run_propagates_errors :
    (∀ env e, env.queryError1 = some e →
      (run env).result = Except.error e ∧ (run env).index = env.index ∧
      (∀ rk m, Event.publish rk m ∉ (run env).trace) ∧
      ∀ ids, Event.bulkUpdate ids ∉ (run env).trace) ∧
    (∀ env e, env.queryError1 = none → env.queryError2 = some e →
      (run env).result = Except.error e ∧ (run env).index = env.index ∧
      (∀ rk m, Event.publish rk m ∉ (run env).trace) ∧
      ∀ ids, Event.bulkUpdate ids ∉ (run env).trace) ∧
    (∀ env k, env.queryError1 = none → env.queryError2 = none →
      env.publishErrorAt = some k → k < (cycleMessages env).length →
      (run env).result = Except.error "PublishError" ∧ (run env).index = env.index ∧
      ∀ ids, Event.bulkUpdate ids ∉ (run env).trace) ∧
    ∀ env e, env.queryError1 = none → env.queryError2 = none → env.publishErrorAt = none →
      env.updateError = some e →
      (run env).result = Except.error e ∧ (run env).index = env.index := by
  refine ⟨?_, ?_, ?_, ?_⟩
  · intro env e h
    simp [run_unfold, h]
  · intro env e h1 h2
    simp [run_unfold, h1, h2]
  · intro env k h1 h2 hp hk
    have herr := publishLoop_err env.routingKey (cycleMessages env) 0 k (by omega) (by omega)
    rw [← hp] at herr
    refine ⟨?_, ?_, ?_⟩
    · simp [run_unfold, h1, h2, herr]
    · simp [run_unfold, h1, h2, herr]
    · intro ids hmem
      simp [run_unfold, h1, h2, herr] at hmem
      obtain ⟨m, _, hm⟩ := publishLoop_mem hmem
      cases hm
  · intro env e h1 h2 hp hu
    have hok := publishLoop_none env.routingKey (cycleMessages env) 0
    rw [← hp] at hok
    constructor
    · simp [run_unfold, h1, h2, hok, hu]
    · simp [run_unfold, h1, h2, hok, hu]

/-- C9 witness: each injected failure surfaces as the cycle's result. -/
theorem run_propagates_errors_witness :
    (run envQ1Fail).result = Except.error "QueryError" ∧
    (run envQ2Fail).result = Except.error "QueryError" ∧
    (run envPubFail).result = Except.error "PublishError" ∧
    (run envUpdFail).result = Except.error "UpdateError" :=
  ⟨(run_propagates_errors.1 envQ1Fail "QueryError" rfl).1,
   (run_propagates_errors.2.1 envQ2Fail "QueryError" rfl rfl).1,
   (run_propagates_errors.2.2.1 envPubFail 0 rfl rfl rfl (by decide)).1,
   (run_propagates_errors.2.2.2 envUpdFail "UpdateError" rfl rfl rfl rfl).1⟩

/-- C4: publishing precedes marking: whenever the bulk-update request is
in a cycle's trace it is the last event, keyed on the cycle's message
uris, with every one of those messages already published earlier in the
trace; and if the Status Reconciler step fails, the cycle errors after
all filtered messages were handed to the sink, no bulk update having
been issued. -/
theorem run_publish_before_mark :
    (∀ env ids, Event.bulkUpdate ids ∈ (run env).trace →
      ∃ pre, (run env).trace = pre ++ [Event.bulkUpdate ids] ∧
        ids = (cycleMessages env).map (fun m => m.uri) ∧
        ∀ m ∈ cycleMessages env, Event.publish env.routingKey m ∈ pre) ∧
    ∀ env e, env.queryError1 = none → env.queryError2 = none → env.publishErrorAt = none →
      env.updateError = some e →
      (run env).result = Except.error e ∧
      (∀ m ∈ cycleMessages env, Event.publish env.routingKey m ∈ (run env).trace) ∧
      ∀ ids, Event.bulkUpdate ids ∉ (run env).trace := by
  constructor
  · intro env ids hmem
    cases h1 : env.queryError1 with
    | some e => simp [run_unfold, h1] at hmem
    | none =>
    cases h2 : env.queryError2 with
    | some e => simp [run_unfold, h1, h2] at hmem
    | none =>
    cases hq : (publishLoop env.publishErrorAt env.routingKey (cycleMessages env) 0).1 with
    | error e =>
      simp [run_unfold, h1, h2, hq] at hmem
      obtain ⟨m, _, hm⟩ := publishLoop_mem hmem
      cases hm
    | ok u =>
    cases hu : env.updateError with
    | some e =>
      simp [run_unfold, h1, h2, hq, hu] at hmem
      obtain ⟨m, _, hm⟩ := publishLoop_mem hmem
      cases hm
    | none =>
    have hpub := publishLoop_ok env.publishErrorAt env.routingKey (cycleMessages env) 0 hq
    have hids : ids = (cycleMessages env).map fun m => m.uri := by
      simp [run_unfold, h1, h2, hq, hu, update_subs, hpub] at hmem
      exact hmem
    refine ⟨Event.search (buildQuery RangeOp.lte (cutoffOf env)) ::
        Event.search (buildQuery RangeOp.gt (cutoffOf env)) ::
          (publishLoop env.publishErrorAt env.routingKey (cycleMessages env) 0).2,
      ?_, hids, ?_⟩
    · simp [run_unfold, h1, h2, hq, hu, update_subs, hids]
    · intro m hm
      rw [hpub]
      exact List.mem_cons_of_mem _ (List.mem_cons_of_mem _ (List.mem_map_of_mem _ hm))
  · intro env e h1 h2 hp hu
    have hok := publishLoop_none env.routingKey (cycleMessages env) 0
    rw [← hp] at hok
    refine ⟨?_, ?_, ?_⟩
    · simp [run_unfold, h1, h2, hok, hu]
    · intro m hm
      simp only [run_unfold, h1, h2, hok, hu]
      simp only [List.mem_cons]
      exact Or.inr (Or.inr (List.mem_map_of_mem _ hm))
    · intro ids hmem
      simp only [run_unfold, h1, h2, hok, hu, List.mem_cons] at hmem
      rcases hmem with h | h | h
      · cases h
      · cases h
      · obtain ⟨m, _, hm⟩ := List.mem_map.mp h
        cases hm

/-- C1 amendment: `filter_messages` keeps exactly the old messages
whose uri is not a young key; for candidate maps `A`, `B`, `C` whose
entries are keyed by their message's uri, with `A` disjoint (by
identifier) from `B` and from `C`, `filter(A∪C, B∪C)` yields exactly
`A`; and within one cycle no message whose identifier appears in the
young query result is ever published. -/
theorem filter_messages_drift :
    (∀ (old young : List (String × Message)) (m : Message),
      m ∈ filter_messages old young ↔
        m ∈ old.map Prod.snd ∧ containsKey young m.uri = false) ∧
    (∀ A B C : List (String × Message),
      (∀ p ∈ A, p.2.uri = p.1) → (∀ p ∈ C, p.2.uri = p.1) →
      (∀ p ∈ A, containsKey B p.1 = false) → (∀ p ∈ A, containsKey C p.1 = false) →
      filter_messages (mapUnion A C) (mapUnion B C) = A.map Prod.snd) ∧
    ∀ (env : Env) (m : Message), containsKey (youngMessages env) m.uri = true →
      ∀ rk, Event.publish rk m ∉ (run env).trace := by
  refine ⟨?_, ?_, ?_⟩
  · intro old young m
    simp [filter_messages, List.mem_filter, Bool.not_eq_true']
  · intro A B C hwfA hwfC hAB hAC
    obtain ⟨extra, hU, hsub⟩ := mapUnion_exists C A
    rw [hU]
    unfold filter_messages
    rw [List.map_append, List.filter_append]
    have hA : (A.map Prod.snd).filter
        (fun m => !containsKey (mapUnion B C) m.uri) = A.map Prod.snd := by
      rw [List.filter_eq_self]
      intro m hm
      obtain ⟨p, hp, rfl⟩ := List.mem_map.mp hm
      rw [hwfA p hp, containsKey_mapUnion, hAB p hp, hAC p hp]
      rfl
    have hE : (extra.map Prod.snd).filter
        (fun m => !containsKey (mapUnion B C) m.uri) = [] := by
      rw [List.filter_eq_nil_iff]
      intro m hm
      obtain ⟨p, hp, rfl⟩ := List.mem_map.mp hm
      have hpC : p ∈ C := hsub p hp
      rw [hwfC p hpC, containsKey_mapUnion, containsKey_of_mem hpC]
      simp
    rw [hA, hE, List.append_nil]
  · intro env m hy rk hmem
    cases h1 : env.queryError1 with
    | some e => simp [run_unfold, h1] at hmem
    | none =>
    cases h2 : env.queryError2 with
    | some e => simp [run_unfold, h1, h2] at hmem
    | none =>
    cases hq : (publishLoop env.publishErrorAt env.routingKey (cycleMessages env) 0).1 with
    | error e =>
      simp [run_unfold, h1, h2, hq] at hmem
      obtain ⟨m2, hm2, hev⟩ := publishLoop_mem hmem
      cases hev
      exact absurd (mem_cycleMessages hm2) (by simp [hy])
    | ok u =>
    cases hu : env.updateError with
    | some e =>
      simp [run_unfold, h1, h2, hq, hu] at hmem
      obtain ⟨m2, hm2, hev⟩ := publishLoop_mem hmem
      cases hev
      exact absurd (mem_cycleMessages hm2) (by simp [hy])
    | none =>
      simp [run_unfold, h1, h2, hq, hu, update_subs] at hmem
      obtain ⟨m2, hm2, hev⟩ := publishLoop_mem hmem
      cases hev
      exact absurd (mem_cycleMessages hm2) (by simp [hy])

/-- C1 counterexample: with `A = {"a" ↦ (uri "a")}`, `B = {}` (disjoint
from `A`) and `C = A`, `filter_messages(A∪C, B∪C)` is empty, not `A`:
the claim's "any set C" fails when `C` overlaps `A`. -/
theorem filter_messages_union_counterexample :
    (([("a", cexMessage)].map Prod.fst).all fun k =>
      !containsKey ([] : List (String × Message)) k) = true ∧
    filter_messages (mapUnion [("a", cexMessage)] [("a", cexMessage)])
        (mapUnion ([] : List (String × Message)) [("a", cexMessage)]) ≠
      [("a", cexMessage)].map Prod.snd := by
  decide

/-- C1 witness: the amended union property at concrete pairwise-disjoint
maps `A = {"a"}`, `B = {"b"}`, `C = {"c"}`. -/
theorem filter_messages_drift_witness :
    filter_messages (mapUnion [("a", cexMessage)] [("c", msgC)])
      (mapUnion [("b", msgB)] [("c", msgC)]) = [cexMessage] :=
  filter_messages_drift.2.1 [("a", cexMessage)] [("b", msgB)] [("c", msgC)]
    (by decide) (by decide) (by decide) (by decide)

/-- C7 amendment: when the Source returns multiple hits for the same
identifier, the candidate map built by `get_messages` contains that
identifier exactly once, and the Message kept is built from the FIRST
hit — later hits for an already-seen identifier are ignored
(first-seen-wins), not last-seen-wins. -/
theorem get_messages_dedup_first_wins (hits : List Doc) :
    ((buildMessages hits).map Prod.fst).Nodup ∧
    (∀ k, containsKey (buildMessages hits) k = hits.any fun h => h.id == k) ∧
    ∀ k m, (k, m) ∈ buildMessages hits →
      ∃ h, hits.find? (fun h => h.id == k) = some h ∧
        m = { uri := h.id, description_path := h.description_path } := by
  refine ⟨?_, ?_, ?_⟩
  · exact foldl_insertHit_nodup hits [] (by simp)
  · intro k
    rw [buildMessages, foldl_insertHit_containsKey]
    simp [containsKey]
  · intro k m hm
    rw [buildMessages, foldl_insertHit_mem] at hm
    rcases hm with h | ⟨_, h⟩
    · cases h
    · exact h

/-- C7 counterexample: two hits with identifier `"x"` but different
payload paths `"p1"` (earlier) and `"p2"` (later): the kept message
carries the earlier hit's path, so it is not built from the later
hit. -/
theorem get_messages_dedup_counterexample :
    buildMessages [dupHitFirst, dupHitSecond] =
      [("x", { uri := "x", description_path := "p1" })] ∧
    dupHitSecond.description_path = "p2" ∧
    buildMessages [dupHitFirst, dupHitSecond] ≠
      [("x", { uri := "x", description_path := dupHitSecond.description_path })] := by
  decide

/-- C7 witness: the dedup theorem applied to the duplicate-hit pair,
exhibiting the first hit as the message's origin. -/
theorem get_messages_dedup_first_wins_witness :
    ∃ h, [dupHitFirst, dupHitSecond].find? (fun h => h.id == "x") = some h ∧
      ({ uri := "x", description_path := "p1" } : Message) =
        { uri := h.id, description_path := h.description_path } :=
  (get_messages_dedup_first_wins [dupHitFirst, dupHitSecond]).2.2 "x"
    { uri := "x", description_path := "p1" } (by decide)

/-- C4 witness: with an injected bulk-update failure, the cycle fails
with that error and the filtered message was already published. -/
theorem run_publish_before_mark_witness :
    (run envUpdFail).result = Except.error "UpdateError" ∧
    Event.publish "rk" { uri := "a", description_path := "p" } ∈ (run envUpdFail).trace := by
  have h := run_publish_before_mark.2 envUpdFail "UpdateError" rfl rfl rfl rfl
  exact ⟨h.1, h.2.1 { uri := "a", description_path := "p" } (by decide)⟩

end StacPublisher
